import Mathlib

/-!
Shallow embedding of the vertex-attribute accessor core of the Rendering
library (src/Mesh/VertexAttributeAccessors.h).

Modelling conventions:
* The vertex buffer's byte memory is a total function `Nat → Nat`; addresses
  are byte offsets relative to the buffer's data block (the C++ base pointer
  `vData.data()` is address 0).
* A 32-bit float is handled by the accessors purely as a bit pattern: the code
  copies floats to and from memory bit-for-bit and never computes on them, so
  a float value is embedded as its 32-bit pattern (a `Nat < 2^32`), stored in
  little-endian byte order.
* Fallible operations (those that may throw `std::range_error` or
  `std::invalid_argument`) return `Except`.
* The external collaborators `MeshVertexData`, `VertexDescription` and
  `VertexAttribute`, the factory bodies and the concrete color encoding
  strategies are declared but not defined in the header; they are modelled
  from the spec and marked as such in their doc comments.
-/

namespace Rendering

/-- Byte-addressed memory of a vertex buffer: a total map from byte address to
stored byte value. Addresses are relative to the buffer's data block. -/
abbrev Mem := Nat → Nat

/-- Store one byte at address `a`. -/
def writeByte (m : Mem) (a v : Nat) : Mem :=
  fun x => if x = a then v else m x

/-- Read a 32-bit word (a float bit pattern) stored little-endian at byte
address `a`. -/
def readWord32 (m : Mem) (a : Nat) : Nat :=
  m a + 256 * m (a + 1) + 65536 * m (a + 2) + 16777216 * m (a + 3)

/-- Store a 32-bit word (a float bit pattern) little-endian at byte address
`a`. -/
def writeWord32 (m : Mem) (a w : Nat) : Mem :=
  writeByte (writeByte (writeByte (writeByte m a (w % 256))
    (a + 1) (w / 256 % 256)) (a + 2) (w / 65536 % 256)) (a + 3) (w / 16777216 % 256)

/-- Modelled from the spec: the numeric component encodings the layout
descriptor can declare (VertexAttribute.h is not part of the core source);
the spec names 32-bit float and 8-bit unsigned normalized. -/
inductive ComponentEncoding where
  | float32
  | uint8normalized
deriving DecidableEq

/-- Modelled from the spec: the attribute metadata kept by the external
layout descriptor — semantic name (an interned identifier, embedded as a
`Nat`), byte offset within a vertex record, component count and component
encoding. -/
structure VertexAttribute where
  nameId : Nat
  offset : Nat
  numValues : Nat
  dataType : ComponentEncoding
deriving DecidableEq

/-- Modelled from the spec: the external vertex layout descriptor — the
record's total byte size (stride) and the named attributes it contains. -/
structure VertexDescription where
  vertexSize : Nat
  attributes : List VertexAttribute

/-- Modelled from the spec: `lookup(attributeName) -> optional
AttributeMetadata` on the layout descriptor. -/
def VertexDescription.getAttribute (d : VertexDescription) (name : Nat) :
    Option VertexAttribute :=
  d.attributes.find? (fun a => a.nameId == name)

/-- Modelled from the spec: the external vertex buffer — it reports the
number of vertices currently stored, carries its layout descriptor and owns
the raw byte memory. -/
structure MeshVertexData where
  vertexCount : Nat
  vertexDescription : VertexDescription
  data : Mem

/-- Error raised by `assertRange` (the header declares `throwRangeError`,
whose body is outside the header; per the source it carries the offending
index). -/
inductive AccessorError where
  | rangeError (index : Nat)
deriving DecidableEq

/-- The state a `VertexAttributeAccessor` fixes at construction: a copy of
the attribute metadata, the per-vertex stride captured from the layout, and
the cached data pointer (buffer base plus attribute offset). The reference
to the live `MeshVertexData` is passed explicitly to each operation. -/
structure VertexAttributeAccessor where
  attr : VertexAttribute
  vertexSize : Nat
  dataPtr : Nat

namespace VertexAttributeAccessor

/-- The constructor `VertexAttributeAccessor(vData, attribute)`: captures the
layout's vertex size and caches `vData.data() + attribute.getOffset()`
(buffer base address modelled as 0). -/
def make (vData : MeshVertexData) (a : VertexAttribute) :
    VertexAttributeAccessor :=
  { attr := a
    vertexSize := vData.vertexDescription.vertexSize
    dataPtr := a.offset }

/-- `checkRange(index)`: `index < vData.getVertexCount()`, with the vertex
count read live from the buffer at call time. -/
def checkRange (_acc : VertexAttributeAccessor) (vData : MeshVertexData)
    (index : Nat) : Bool :=
  decide (index < vData.vertexCount)

/-- `assertRange(index)`: throws a range error carrying the index when
`index >= vData.getVertexCount()`. -/
def assertRange (_acc : VertexAttributeAccessor) (vData : MeshVertexData)
    (index : Nat) : Except AccessorError Unit :=
  if vData.vertexCount ≤ index then .error (.rangeError index) else .ok ()

/-- `getAttribute()`: the attribute metadata copied at construction. -/
def getAttribute (acc : VertexAttributeAccessor) : VertexAttribute :=
  acc.attr

/-- `_ptr<number_t>(index)`: `dataPtr + index * vertexSize`, with no bounds
check of its own. The result is a byte address; the reinterpretation to the
attribute's numeric encoding happens in the typed read/write operations. -/
def ptrAt (acc : VertexAttributeAccessor) (index : Nat) : Nat :=
  acc.dataPtr + index * acc.vertexSize

end VertexAttributeAccessor

/-- A 3-component vector as the position accessor sees it: three 32-bit
float bit patterns. -/
structure Vec3 where
  x : Nat
  y : Nat
  z : Nat
deriving DecidableEq

/-- A 2-component vector as the texture-coordinate accessor sees it: two
32-bit float bit patterns. -/
structure Vec2 where
  x : Nat
  y : Nat
deriving DecidableEq

namespace PositionAttributeAccessor

/-- `getPosition(index)`: `assertRange(index)`, then decode three consecutive
32-bit floats at `_ptr(index)`. -/
def getPosition (acc : VertexAttributeAccessor) (vData : MeshVertexData)
    (index : Nat) : Except AccessorError Vec3 :=
  match acc.assertRange vData index with
  | .error e => .error e
  | .ok _ =>
    .ok ⟨readWord32 vData.data (acc.ptrAt index),
         readWord32 vData.data (acc.ptrAt index + 4),
         readWord32 vData.data (acc.ptrAt index + 8)⟩

/-- `setPosition(index, p)`: `assertRange(index)`, then write three
consecutive 32-bit floats at `_ptr(index)`; returns the updated buffer. -/
def setPosition (acc : VertexAttributeAccessor) (vData : MeshVertexData)
    (index : Nat) (p : Vec3) : Except AccessorError MeshVertexData :=
  match acc.assertRange vData index with
  | .error e => .error e
  | .ok _ =>
    let m := writeWord32 (writeWord32 (writeWord32 vData.data
      (acc.ptrAt index) p.x) (acc.ptrAt index + 4) p.y) (acc.ptrAt index + 8) p.z
    .ok { vData with data := m }

/-- `getPosition` in explicit state-passing form: a `const` method on a
buffer it only reads, so the returned buffer state is the input state. -/
def getPositionS (acc : VertexAttributeAccessor) (index : Nat)
    (s : MeshVertexData) : Except AccessorError (Vec3 × MeshVertexData) :=
  match acc.assertRange s index with
  | .error e => .error e
  | .ok _ =>
    .ok (⟨readWord32 s.data (acc.ptrAt index),
          readWord32 s.data (acc.ptrAt index + 4),
          readWord32 s.data (acc.ptrAt index + 8)⟩, s)

end PositionAttributeAccessor

namespace TexCoordAttributeAccessor

/-- `getCoordinate(index)`: `assertRange(index)`, then decode two consecutive
32-bit floats at `_ptr(index)`. -/
def getCoordinate (acc : VertexAttributeAccessor) (vData : MeshVertexData)
    (index : Nat) : Except AccessorError Vec2 :=
  match acc.assertRange vData index with
  | .error e => .error e
  | .ok _ =>
    .ok ⟨readWord32 vData.data (acc.ptrAt index),
         readWord32 vData.data (acc.ptrAt index + 4)⟩

/-- `setCoordinate(index, p)`: `assertRange(index)`, then write two
consecutive 32-bit floats at `_ptr(index)`; returns the updated buffer. -/
def setCoordinate (acc : VertexAttributeAccessor) (vData : MeshVertexData)
    (index : Nat) (p : Vec2) : Except AccessorError MeshVertexData :=
  match acc.assertRange vData index with
  | .error e => .error e
  | .ok _ =>
    let m := writeWord32 (writeWord32 vData.data
      (acc.ptrAt index) p.x) (acc.ptrAt index + 4) p.y
    .ok { vData with data := m }

/-- `getCoordinate` in explicit state-passing form: a `const` method on a
buffer it only reads, so the returned buffer state is the input state. -/
def getCoordinateS (acc : VertexAttributeAccessor) (index : Nat)
    (s : MeshVertexData) : Except AccessorError (Vec2 × MeshVertexData) :=
  match acc.assertRange s index with
  | .error e => .error e
  | .ok _ =>
    .ok (⟨readWord32 s.data (acc.ptrAt index),
          readWord32 s.data (acc.ptrAt index + 4)⟩, s)

end TexCoordAttributeAccessor

/-- An RGBA color in float form; components are exact rationals standing for
the normalized [0,1] range values. -/
structure Color4f where
  r : ℚ
  g : ℚ
  b : ℚ
  a : ℚ
deriving DecidableEq

/-- An RGBA color in byte form; components are byte values 0..255. -/
structure Color4ub where
  r : Nat
  g : Nat
  b : Nat
  a : Nat
deriving DecidableEq

/-- Modelled from the spec: the normalized-range float-to-byte conversion
used by the color strategies (the concrete strategies live in the
implementation file, which is not part of the header): scale by 255, round,
clamp to 0..255. -/
def floatToUByte (x : ℚ) : Nat :=
  (min 255 (max 0 (round (x * 255)))).toNat

/-- Modelled from the spec: the normalized-range byte-to-float conversion:
divide by 255. -/
def ubyteToFloat (v : Nat) : ℚ :=
  (v : ℚ) / 255

namespace ColorAttributeAccessor4ub

/-- Modelled from the spec: the byte-encoding color strategy's
`getColor4ub(index)` — bounds check, then read the four stored bytes. -/
def getColor4ub (acc : VertexAttributeAccessor) (vData : MeshVertexData)
    (index : Nat) : Except AccessorError Color4ub :=
  match acc.assertRange vData index with
  | .error e => .error e
  | .ok _ =>
    .ok ⟨vData.data (acc.ptrAt index), vData.data (acc.ptrAt index + 1),
         vData.data (acc.ptrAt index + 2), vData.data (acc.ptrAt index + 3)⟩

/-- Modelled from the spec: the byte-encoding color strategy's
`getColor4f(index)` — bounds check, read the four stored bytes, answer the
float query by normalized-range conversion. -/
def getColor4f (acc : VertexAttributeAccessor) (vData : MeshVertexData)
    (index : Nat) : Except AccessorError Color4f :=
  match acc.assertRange vData index with
  | .error e => .error e
  | .ok _ =>
    .ok ⟨ubyteToFloat (vData.data (acc.ptrAt index)),
         ubyteToFloat (vData.data (acc.ptrAt index + 1)),
         ubyteToFloat (vData.data (acc.ptrAt index + 2)),
         ubyteToFloat (vData.data (acc.ptrAt index + 3))⟩

/-- Modelled from the spec: the byte-encoding color strategy's
`setColor(index, Color4f)` — bounds check, convert each component by
normalized range, write the four bytes in place. -/
def setColor (acc : VertexAttributeAccessor) (vData : MeshVertexData)
    (index : Nat) (c : Color4f) : Except AccessorError MeshVertexData :=
  match acc.assertRange vData index with
  | .error e => .error e
  | .ok _ =>
    let m := writeByte (writeByte (writeByte (writeByte vData.data
      (acc.ptrAt index) (floatToUByte c.r))
      (acc.ptrAt index + 1) (floatToUByte c.g))
      (acc.ptrAt index + 2) (floatToUByte c.b))
      (acc.ptrAt index + 3) (floatToUByte c.a)
    .ok { vData with data := m }

/-- Modelled from the spec: the byte-encoding color strategy's
`setColor(index, Color4ub)` — bounds check, write the four bytes in place. -/
def setColorUByte (acc : VertexAttributeAccessor) (vData : MeshVertexData)
    (index : Nat) (c : Color4ub) : Except AccessorError MeshVertexData :=
  match acc.assertRange vData index with
  | .error e => .error e
  | .ok _ =>
    let m := writeByte (writeByte (writeByte (writeByte vData.data
      (acc.ptrAt index) (c.r % 256))
      (acc.ptrAt index + 1) (c.g % 256))
      (acc.ptrAt index + 2) (c.b % 256))
      (acc.ptrAt index + 3) (c.a % 256)
    .ok { vData with data := m }

end ColorAttributeAccessor4ub

/-- The exact value of an IEEE-754 binary32 bit pattern as a rational: sign
bit, 8-bit biased exponent, 23-bit mantissa; exponent 0 is subnormal with
scale 2^(-149). Patterns with exponent 255 (infinities, NaNs) have no finite
value and lie outside the normalized color range; the decode extends the
normal formula to them. -/
def float32ToRat (w : Nat) : ℚ :=
  let s : Nat := w / 2 ^ 31 % 2
  let e : Nat := w / 2 ^ 23 % 256
  let m : Nat := w % 2 ^ 23
  let mag : ℚ :=
    if e = 0 then (m : ℚ) * (2 : ℚ) ^ (-(149 : ℤ))
    else ((2 ^ 23 + m : ℕ) : ℚ) * (2 : ℚ) ^ ((e : ℤ) - 150)
  if s = 0 then mag else -mag

/-- A float-encoded RGBA color as the accessor transports it: four 32-bit
float bit patterns; the numeric value of a component is `float32ToRat` of
its pattern (the accessor copies the floats bit-for-bit). -/
structure Color4bits where
  r : Nat
  g : Nat
  b : Nat
  a : Nat
deriving DecidableEq

namespace ColorAttributeAccessor4f

/-- Modelled from the spec: the float-encoding color strategy's
`getColor4f(index)` — bounds check, then decode four consecutive 32-bit
floats as the float color. -/
def getColor4f (acc : VertexAttributeAccessor) (vData : MeshVertexData)
    (index : Nat) : Except AccessorError Color4f :=
  match acc.assertRange vData index with
  | .error e => .error e
  | .ok _ =>
    .ok ⟨float32ToRat (readWord32 vData.data (acc.ptrAt index)),
         float32ToRat (readWord32 vData.data (acc.ptrAt index + 4)),
         float32ToRat (readWord32 vData.data (acc.ptrAt index + 8)),
         float32ToRat (readWord32 vData.data (acc.ptrAt index + 12))⟩

/-- Modelled from the spec: the float-encoding color strategy's
`getColor4ub(index)` — bounds check, decode the four stored floats, answer
the byte query by normalized-range conversion of each component. -/
def getColor4ub (acc : VertexAttributeAccessor) (vData : MeshVertexData)
    (index : Nat) : Except AccessorError Color4ub :=
  match acc.assertRange vData index with
  | .error e => .error e
  | .ok _ =>
    .ok ⟨floatToUByte (float32ToRat (readWord32 vData.data (acc.ptrAt index))),
         floatToUByte (float32ToRat (readWord32 vData.data (acc.ptrAt index + 4))),
         floatToUByte (float32ToRat (readWord32 vData.data (acc.ptrAt index + 8))),
         floatToUByte (float32ToRat (readWord32 vData.data (acc.ptrAt index + 12)))⟩

/-- Modelled from the spec: the float-encoding color strategy's
`setColor(index, Color4f)` — bounds check, then write the four float
components (carried as their bit patterns) in place. -/
def setColor (acc : VertexAttributeAccessor) (vData : MeshVertexData)
    (index : Nat) (c : Color4bits) : Except AccessorError MeshVertexData :=
  match acc.assertRange vData index with
  | .error e => .error e
  | .ok _ =>
    let m := writeWord32 (writeWord32 (writeWord32 (writeWord32 vData.data
      (acc.ptrAt index) c.r) (acc.ptrAt index + 4) c.g)
      (acc.ptrAt index + 8) c.b) (acc.ptrAt index + 12) c.a
    .ok { vData with data := m }

end ColorAttributeAccessor4f

/-- Error raised by the factories: the requested attribute name is absent
from the layout descriptor, or it is present but no encoding strategy
matches its declared component count and encoding. -/
inductive FactoryError where
  | invalidAttribute (name : Nat)
  | unsupportedEncoding
deriving DecidableEq

/-- Modelled from the spec: the factory `PositionAttributeAccessor::create`
— look the name up in the layout descriptor, fail with an
InvalidAttribute-kind error if absent, match the single position encoding
(three 32-bit floats), fail with an UnsupportedEncoding-kind error if it
does not match. -/
def PositionAttributeAccessor.create (vData : MeshVertexData) (name : Nat) :
    Except FactoryError VertexAttributeAccessor :=
  match vData.vertexDescription.getAttribute name with
  | none => .error (.invalidAttribute name)
  | some a =>
    if a.dataType = .float32 ∧ a.numValues = 3 then
      .ok (VertexAttributeAccessor.make vData a)
    else .error .unsupportedEncoding

/-- Modelled from the spec: the factory `TexCoordAttributeAccessor::create`
— same shape as the position factory with the single texture-coordinate
encoding (two 32-bit floats). -/
def TexCoordAttributeAccessor.create (vData : MeshVertexData) (name : Nat) :
    Except FactoryError VertexAttributeAccessor :=
  match vData.vertexDescription.getAttribute name with
  | none => .error (.invalidAttribute name)
  | some a =>
    if a.dataType = .float32 ∧ a.numValues = 2 then
      .ok (VertexAttributeAccessor.make vData a)
    else .error .unsupportedEncoding

/-- Modelled from the spec: the factory `NormalAttributeAccessor::create` —
look up the name (InvalidAttribute-kind error if absent) and match the
3-component float encoding (UnsupportedEncoding-kind error otherwise). -/
def NormalAttributeAccessor.create (vData : MeshVertexData) (name : Nat) :
    Except FactoryError VertexAttributeAccessor :=
  match vData.vertexDescription.getAttribute name with
  | none => .error (.invalidAttribute name)
  | some a =>
    if a.dataType = .float32 ∧ a.numValues = 3 then
      .ok (VertexAttributeAccessor.make vData a)
    else .error .unsupportedEncoding

/-- Modelled from the spec: the factory `ColorAttributeAccessor::create` —
look up the name (InvalidAttribute-kind error if absent) and consult the
ordered list of known color encodings (four floats, then four normalized
bytes); UnsupportedEncoding-kind error if none matches. The result carries
which strategy was selected. -/
def ColorAttributeAccessor.create (vData : MeshVertexData) (name : Nat) :
    Except FactoryError (ComponentEncoding × VertexAttributeAccessor) :=
  match vData.vertexDescription.getAttribute name with
  | none => .error (.invalidAttribute name)
  | some a =>
    if a.dataType = .float32 ∧ a.numValues = 4 then
      .ok (.float32, VertexAttributeAccessor.make vData a)
    else if a.dataType = .uint8normalized ∧ a.numValues = 4 then
      .ok (.uint8normalized, VertexAttributeAccessor.make vData a)
    else .error .unsupportedEncoding

/-! Concrete fixtures used by the witness theorems: the spec's scenario —
a buffer with 10 vertices, stride 32 bytes, a position attribute at offset 0
(three floats) and a color attribute at offset 12 (four bytes). -/

/-- Position attribute of the witness layout: name 1, offset 0, 3 floats. -/
def posAttrW : VertexAttribute := ⟨1, 0, 3, .float32⟩

/-- Color attribute of the witness layout: name 2, offset 12, 4 bytes. -/
def colAttrW : VertexAttribute := ⟨2, 12, 4, .uint8normalized⟩

/-- Texture-coordinate attribute of the witness layout: name 3, offset 16,
2 floats. -/
def texAttrW : VertexAttribute := ⟨3, 16, 2, .float32⟩

/-- Witness layout descriptor: stride 32, the three attributes above. -/
def descW : VertexDescription := ⟨32, [posAttrW, colAttrW, texAttrW]⟩

/-- Witness buffer memory: every byte initially 7. -/
def memW : Mem := fun _ => 7

/-- Witness buffer with 10 vertices. -/
def vDataW : MeshVertexData := ⟨10, descW, memW⟩

/-- Witness buffer with 0 vertices. -/
def vDataW0 : MeshVertexData := ⟨0, descW, memW⟩

/-- Position accessor over the witness buffer. -/
def accPosW : VertexAttributeAccessor := VertexAttributeAccessor.make vDataW posAttrW

/-- Color accessor over the witness buffer. -/
def accColW : VertexAttributeAccessor := VertexAttributeAccessor.make vDataW colAttrW

/-- Texture-coordinate accessor over the witness buffer. -/
def accTexW : VertexAttributeAccessor := VertexAttributeAccessor.make vDataW texAttrW

/-- The witness buffer after `setPosition(3, ⟨1, 2, 3⟩)` through the
position accessor. -/
def vDataWpos : MeshVertexData :=
  { vDataW with
    data := writeWord32 (writeWord32 (writeWord32 vDataW.data (accPosW.ptrAt 3) 1)
              (accPosW.ptrAt 3 + 4) 2) (accPosW.ptrAt 3 + 8) 3 }

/-- The witness buffer after `setCoordinate(5, ⟨6, 7⟩)` through the
texture-coordinate accessor. -/
def vDataWtex : MeshVertexData :=
  { vDataW with
    data := writeWord32 (writeWord32 vDataW.data (accTexW.ptrAt 5) 6)
              (accTexW.ptrAt 5 + 4) 7 }

/-- The witness buffer after `setColor(4, ⟨1/2, 0, 1, 1⟩)` through the
byte-encoded color accessor. -/
def vDataWcol : MeshVertexData :=
  { vDataW with
    data := writeByte (writeByte (writeByte (writeByte vDataW.data
              (accColW.ptrAt 4) (floatToUByte (1/2)))
              (accColW.ptrAt 4 + 1) (floatToUByte 0))
              (accColW.ptrAt 4 + 2) (floatToUByte 1))
              (accColW.ptrAt 4 + 3) (floatToUByte 1) }

/-- Float-encoded color attribute of the float-witness layout: name 4,
offset 0, 4 floats. -/
def colFAttrW : VertexAttribute := ⟨4, 0, 4, .float32⟩

/-- Witness layout for the float-encoded color strategy: stride 16. -/
def descWF : VertexDescription := ⟨16, [colFAttrW]⟩

/-- Witness buffer for the float-encoded color strategy: 10 vertices. -/
def vDataWF : MeshVertexData := ⟨10, descWF, memW⟩

/-- Float-encoded color accessor over the float-witness buffer. -/
def accColFW : VertexAttributeAccessor := VertexAttributeAccessor.make vDataWF colFAttrW

/-- The float-witness buffer after `setColor(2, c)` where `c` carries the
bit patterns of the floats (0.5, 0, 1, 1). -/
def vDataWFcol : MeshVertexData :=
  { vDataWF with
    data := writeWord32 (writeWord32 (writeWord32 (writeWord32 vDataWF.data
              (accColFW.ptrAt 2) 1056964608) (accColFW.ptrAt 2 + 4) 0)
              (accColFW.ptrAt 2 + 8) 1065353216) (accColFW.ptrAt 2 + 12) 1065353216 }


/-! Memory lemmas. -/

theorem writeByte_self (m : Mem) (a v : Nat) : writeByte m a v a = v := by
  simp [writeByte]

theorem writeByte_other (m : Mem) (a v x : Nat) (h : x ≠ a) :
    writeByte m a v x = m x := by
  simp [writeByte, h]

theorem writeWord32_outside (m : Mem) (a w x : Nat)
    (h : x < a ∨ a + 4 ≤ x) : writeWord32 m a w x = m x := by
  have h0 : x ≠ a := by omega
  have h1 : x ≠ a + 1 := by omega
  have h2 : x ≠ a + 2 := by omega
  have h3 : x ≠ a + 3 := by omega
  simp [writeWord32, writeByte, h0, h1, h2, h3]

theorem readWord32_writeWord32_self (m : Mem) (a w : Nat) :
    readWord32 (writeWord32 m a w) a = w % 4294967296 := by
  have e0 : writeWord32 m a w a = w % 256 := by
    simp [writeWord32, writeByte]
  have e1 : writeWord32 m a w (a + 1) = w / 256 % 256 := by
    simp [writeWord32, writeByte]
  have e2 : writeWord32 m a w (a + 2) = w / 65536 % 256 := by
    simp [writeWord32, writeByte]
  have e3 : writeWord32 m a w (a + 3) = w / 16777216 % 256 := by
    simp [writeWord32, writeByte]
  rw [readWord32, e0, e1, e2, e3]
  omega

theorem readWord32_writeWord32_disjoint (m : Mem) (a b w : Nat)
    (h : a + 4 ≤ b ∨ b + 4 ≤ a) :
    readWord32 (writeWord32 m b w) a = readWord32 m a := by
  have g0 := writeWord32_outside m b w a (by omega)
  have g1 := writeWord32_outside m b w (a + 1) (by omega)
  have g2 := writeWord32_outside m b w (a + 2) (by omega)
  have g3 := writeWord32_outside m b w (a + 3) (by omega)
  rw [readWord32, readWord32, g0, g1, g2, g3]

/-! Claim C1. -/

/-- C1: for every index at or beyond the buffer's current vertex count, every
get/set operation fails with the range error carrying that index and returns
no updated buffer (so no memory write happens); in particular, on a buffer
with 0 vertices any get/set at index 0 fails this way. -/
theorem accessOutOfRange_rangeError (acc : VertexAttributeAccessor)
    (vData : MeshVertexData) (index : Nat) (h : vData.vertexCount ≤ index) :
    PositionAttributeAccessor.getPosition acc vData index = .error (.rangeError index) ∧
    (∀ p, PositionAttributeAccessor.setPosition acc vData index p = .error (.rangeError index)) ∧
    TexCoordAttributeAccessor.getCoordinate acc vData index = .error (.rangeError index) ∧
    (∀ q, TexCoordAttributeAccessor.setCoordinate acc vData index q = .error (.rangeError index)) ∧
    ColorAttributeAccessor4ub.getColor4ub acc vData index = .error (.rangeError index) ∧
    ColorAttributeAccessor4ub.getColor4f acc vData index = .error (.rangeError index) ∧
    (∀ c, ColorAttributeAccessor4ub.setColor acc vData index c = .error (.rangeError index)) ∧
    VertexAttributeAccessor.checkRange acc vData index = false := by
  have hn : ¬ index < vData.vertexCount := by omega
  refine ⟨?_, ?_, ?_, ?_, ?_, ?_, ?_, ?_⟩ <;>
  · intros
    simp [PositionAttributeAccessor.getPosition, PositionAttributeAccessor.setPosition,
      TexCoordAttributeAccessor.getCoordinate, TexCoordAttributeAccessor.setCoordinate,
      ColorAttributeAccessor4ub.getColor4ub, ColorAttributeAccessor4ub.getColor4f,
      ColorAttributeAccessor4ub.setColor, VertexAttributeAccessor.checkRange,
      VertexAttributeAccessor.assertRange, h, hn]

/-- Witness for C1: the 0-vertex witness buffer rejects any access at
index 0. -/
theorem accessOutOfRange_rangeError_witness :
    PositionAttributeAccessor.getPosition accPosW vDataW0 0 = .error (.rangeError 0) ∧
    PositionAttributeAccessor.setPosition accPosW vDataW0 0 ⟨1, 2, 3⟩ = .error (.rangeError 0) := by
  have h := accessOutOfRange_rangeError accPosW vDataW0 0 (by decide)
  exact ⟨h.1, h.2.1 ⟨1, 2, 3⟩⟩

/-! Claim C3. -/

/-- C3: `checkRange(index)` is true exactly when `index` is below the vertex
count read live from the buffer passed at call time — the result does not
depend on the accessor instance or on its construction-time buffer — and
`assertRange(index)` fails with the range error exactly when `checkRange` is
false. -/
theorem checkRange_live_iff (acc : VertexAttributeAccessor)
    (vData : MeshVertexData) (index : Nat) :
    (VertexAttributeAccessor.checkRange acc vData index = true ↔ index < vData.vertexCount) ∧
    (∀ vData0 a0, VertexAttributeAccessor.checkRange
        (VertexAttributeAccessor.make vData0 a0) vData index =
      VertexAttributeAccessor.checkRange acc vData index) ∧
    (VertexAttributeAccessor.assertRange acc vData index = .error (.rangeError index) ↔
      VertexAttributeAccessor.checkRange acc vData index = false) ∧
    (VertexAttributeAccessor.assertRange acc vData index = .ok () ↔
      VertexAttributeAccessor.checkRange acc vData index = true) := by
  unfold VertexAttributeAccessor.checkRange VertexAttributeAccessor.assertRange
  by_cases hc : index < vData.vertexCount
  · have hn : ¬ vData.vertexCount ≤ index := by omega
    simp [hc, hn]
  · have hn : vData.vertexCount ≤ index := by omega
    simp [hc, hn]

/-! Claim C2. -/

theorem assertRange_ok (acc : VertexAttributeAccessor) (vData : MeshVertexData)
    (index : Nat) (h : index < vData.vertexCount) :
    acc.assertRange vData index = .ok () := by
  simp [VertexAttributeAccessor.assertRange, Nat.not_le.mpr h]

theorem assertRange_err (acc : VertexAttributeAccessor) (vData : MeshVertexData)
    (index : Nat) (h : vData.vertexCount ≤ index) :
    acc.assertRange vData index = .error (.rangeError index) := by
  simp [VertexAttributeAccessor.assertRange, h]

/-- C2: for every index valid at call time and every vector of 32-bit float
patterns, `setPosition(i, p)` followed by `getPosition(i)` on the same
accessor returns exactly `p`: the three floats are stored and re-read
bit-for-bit, with no quantization. -/
theorem setPosition_getPosition_roundtrip (acc : VertexAttributeAccessor)
    (vData vData' : MeshVertexData) (index : Nat) (p : Vec3)
    (hidx : index < vData.vertexCount)
    (hx : p.x < 4294967296) (hy : p.y < 4294967296) (hz : p.z < 4294967296)
    (hset : PositionAttributeAccessor.setPosition acc vData index p = .ok vData') :
    PositionAttributeAccessor.getPosition acc vData' index = .ok p := by
  obtain ⟨px, py, pz⟩ := p
  have ha := assertRange_ok acc vData index hidx
  simp [PositionAttributeAccessor.setPosition, ha] at hset
  subst hset
  have ha' : acc.assertRange
      { vData with data := writeWord32 (writeWord32 (writeWord32 vData.data
        (acc.ptrAt index) px) (acc.ptrAt index + 4) py) (acc.ptrAt index + 8) pz }
      index = .ok () := assertRange_ok _ _ _ hidx
  simp [PositionAttributeAccessor.getPosition, ha']
  refine ⟨?_, ?_, ?_⟩
  · rw [readWord32_writeWord32_disjoint _ (acc.ptrAt index) (acc.ptrAt index + 8) _ (by omega),
      readWord32_writeWord32_disjoint _ (acc.ptrAt index) (acc.ptrAt index + 4) _ (by omega),
      readWord32_writeWord32_self]
    exact Nat.mod_eq_of_lt hx
  · rw [readWord32_writeWord32_disjoint _ (acc.ptrAt index + 4) (acc.ptrAt index + 8) _ (by omega),
      readWord32_writeWord32_self]
    exact Nat.mod_eq_of_lt hy
  · rw [readWord32_writeWord32_self]
    exact Nat.mod_eq_of_lt hz

/-- Witness for C2: the spec scenario, `setPosition(3, (1, 2, 3))` then
`getPosition(3)` on the witness buffer. -/
theorem setPosition_getPosition_roundtrip_witness :
    PositionAttributeAccessor.getPosition accPosW vDataWpos 3 = .ok (Vec3.mk 1 2 3) :=
  setPosition_getPosition_roundtrip accPosW vDataW vDataWpos 3 (Vec3.mk 1 2 3)
    (by decide) (by decide) (by decide) (by decide) rfl

/-! Claim C4. -/

/-- C4: the internal pointer primitive computes the cached base pointer plus
index times the captured stride for every index, with no bounds check of its
own, while every public get/set entry point consults `assertRange` before
touching memory: at an out-of-range index all four fail with the range
error, the set operations return no updated buffer, and the get results do
not depend on the buffer memory at all. -/
theorem ptrAt_unchecked_entryPoints_checked (acc : VertexAttributeAccessor)
    (vData : MeshVertexData) (index : Nat) :
    (∀ j, acc.ptrAt j = acc.dataPtr + j * acc.vertexSize) ∧
    (vData.vertexCount ≤ index →
      PositionAttributeAccessor.getPosition acc vData index = .error (.rangeError index) ∧
      TexCoordAttributeAccessor.getCoordinate acc vData index = .error (.rangeError index) ∧
      (∀ p, PositionAttributeAccessor.setPosition acc vData index p = .error (.rangeError index)) ∧
      (∀ q, TexCoordAttributeAccessor.setCoordinate acc vData index q = .error (.rangeError index)) ∧
      (∀ m, PositionAttributeAccessor.getPosition acc { vData with data := m } index =
        PositionAttributeAccessor.getPosition acc vData index) ∧
      (∀ m, TexCoordAttributeAccessor.getCoordinate acc { vData with data := m } index =
        TexCoordAttributeAccessor.getCoordinate acc vData index)) := by
  refine ⟨fun _ => rfl, fun h => ?_⟩
  have e1 := assertRange_err acc vData index h
  have e2 : ∀ m : Mem, acc.assertRange { vData with data := m } index =
      .error (.rangeError index) := fun m => assertRange_err acc _ index h
  refine ⟨?_, ?_, ?_, ?_, ?_, ?_⟩ <;>
  · intros
    simp [PositionAttributeAccessor.getPosition, PositionAttributeAccessor.setPosition,
      TexCoordAttributeAccessor.getCoordinate, TexCoordAttributeAccessor.setCoordinate,
      e1, e2]

/-- Witness for C4 at index 10 of the 10-vertex witness buffer. -/
theorem ptrAt_unchecked_entryPoints_checked_witness :
    accPosW.ptrAt 10 = accPosW.dataPtr + 10 * accPosW.vertexSize ∧
    PositionAttributeAccessor.getPosition accPosW vDataW 10 = .error (.rangeError 10) := by
  have h := ptrAt_unchecked_entryPoints_checked accPosW vDataW 10
  exact ⟨h.1 10, (h.2 (by decide)).1⟩

/-! Claim C6. -/

/-- C6: the texture-coordinate accessor has the same contract shape as the
position accessor with two components: `getCoordinate` bounds-checks and
decodes two consecutive 32-bit floats, `setCoordinate` bounds-checks and
writes two floats in place, and for every valid index the set-then-get
round-trip returns the written pair of float patterns exactly. -/
theorem texCoord_contract (acc : VertexAttributeAccessor)
    (vData : MeshVertexData) (index : Nat) :
    (vData.vertexCount ≤ index →
      TexCoordAttributeAccessor.getCoordinate acc vData index = .error (.rangeError index) ∧
      ∀ q, TexCoordAttributeAccessor.setCoordinate acc vData index q = .error (.rangeError index)) ∧
    (∀ p vData', index < vData.vertexCount → p.x < 4294967296 → p.y < 4294967296 →
      TexCoordAttributeAccessor.setCoordinate acc vData index p = .ok vData' →
      TexCoordAttributeAccessor.getCoordinate acc vData' index = .ok p) := by
  constructor
  · intro h
    have e1 := assertRange_err acc vData index h
    exact ⟨by simp [TexCoordAttributeAccessor.getCoordinate, e1],
      fun q => by simp [TexCoordAttributeAccessor.setCoordinate, e1]⟩
  · intro p vData' hidx hx hy hset
    obtain ⟨px, py⟩ := p
    have ha := assertRange_ok acc vData index hidx
    simp [TexCoordAttributeAccessor.setCoordinate, ha] at hset
    subst hset
    have ha' : acc.assertRange
        { vData with data := writeWord32 (writeWord32 vData.data
          (acc.ptrAt index) px) (acc.ptrAt index + 4) py }
        index = .ok () := assertRange_ok _ _ _ hidx
    simp [TexCoordAttributeAccessor.getCoordinate, ha']
    refine ⟨?_, ?_⟩
    · rw [readWord32_writeWord32_disjoint _ (acc.ptrAt index) (acc.ptrAt index + 4) _ (by omega),
        readWord32_writeWord32_self]
      exact Nat.mod_eq_of_lt hx
    · rw [readWord32_writeWord32_self]
      exact Nat.mod_eq_of_lt hy

/-- Witness for C6: `setCoordinate(5, (6, 7))` then `getCoordinate(5)` on
the witness buffer. -/
theorem texCoord_contract_witness :
    TexCoordAttributeAccessor.getCoordinate accTexW vDataWtex 5 = .ok (Vec2.mk 6 7) :=
  (texCoord_contract accTexW vDataW 5).2 (Vec2.mk 6 7) vDataWtex
    (by decide) (by decide) (by decide) rfl

/-! Claim C9. -/

/-- C9: an accessor's internal state is fixed at construction: `getAttribute`
returns the metadata supplied to the constructor, the stride is the vertex
size captured once from the construction-time layout, the cached pointer is
the attribute's byte offset, the address computed for index `i` is always
the cached pointer plus `i` times the captured stride, and `getPosition`
against any later buffer state still derives its addresses from those
captured values while taking the bounds from the live buffer. -/
theorem accessor_state_fixed_at_construction (vData vData' : MeshVertexData)
    (a : VertexAttribute) (index : Nat) :
    VertexAttributeAccessor.getAttribute (VertexAttributeAccessor.make vData a) = a ∧
    (VertexAttributeAccessor.make vData a).vertexSize =
      vData.vertexDescription.vertexSize ∧
    (VertexAttributeAccessor.make vData a).dataPtr = a.offset ∧
    (VertexAttributeAccessor.make vData a).ptrAt index =
      a.offset + index * vData.vertexDescription.vertexSize ∧
    (index < vData'.vertexCount →
      PositionAttributeAccessor.getPosition (VertexAttributeAccessor.make vData a)
          vData' index =
        .ok ⟨readWord32 vData'.data
              (a.offset + index * vData.vertexDescription.vertexSize),
             readWord32 vData'.data
              (a.offset + index * vData.vertexDescription.vertexSize + 4),
             readWord32 vData'.data
              (a.offset + index * vData.vertexDescription.vertexSize + 8)⟩) := by
  refine ⟨rfl, rfl, rfl, rfl, fun h => ?_⟩
  have ha := assertRange_ok (VertexAttributeAccessor.make vData a) vData' index h
  simp only [VertexAttributeAccessor.make] at ha
  simp [PositionAttributeAccessor.getPosition, ha, VertexAttributeAccessor.ptrAt,
    VertexAttributeAccessor.make]

/-- Witness for C9: the accessor built over the witness buffer, then used on
the altered buffer `vDataWpos`. -/
theorem accessor_state_fixed_at_construction_witness :
    (VertexAttributeAccessor.make vDataW posAttrW).ptrAt 2 =
      posAttrW.offset + 2 * vDataW.vertexDescription.vertexSize ∧
    PositionAttributeAccessor.getPosition (VertexAttributeAccessor.make vDataW posAttrW)
        vDataWpos 2 =
      .ok ⟨readWord32 vDataWpos.data
            (posAttrW.offset + 2 * vDataW.vertexDescription.vertexSize),
           readWord32 vDataWpos.data
            (posAttrW.offset + 2 * vDataW.vertexDescription.vertexSize + 4),
           readWord32 vDataWpos.data
            (posAttrW.offset + 2 * vDataW.vertexDescription.vertexSize + 8)⟩ := by
  have h := accessor_state_fixed_at_construction vDataW vDataWpos posAttrW 2
  exact ⟨h.2.2.2.1, h.2.2.2.2 (by decide)⟩

/-! Claim C10. -/

theorem readWord32_congr (m1 m2 : Mem) (a : Nat)
    (h : ∀ k, k < 4 → m1 (a + k) = m2 (a + k)) :
    readWord32 m1 a = readWord32 m2 a := by
  have h0 : m1 a = m2 a := by simpa using h 0 (by omega)
  have h1 := h 1 (by omega)
  have h2 := h 2 (by omega)
  have h3 := h 3 (by omega)
  rw [readWord32, readWord32, h0, h1, h2, h3]

/-- C10: every get operation is a pure, deterministic read: the
state-passing forms of `getPosition` and `getCoordinate` leave the buffer
state unchanged and repeating them yields the same answer, `checkRange`
depends only on the live vertex count, and `getPosition` depends only on the
vertex count and the twelve bytes of the addressed record. -/
theorem get_operations_pure (acc : VertexAttributeAccessor) (index : Nat)
    (s : MeshVertexData) :
    (∀ v s', PositionAttributeAccessor.getPositionS acc index s = .ok (v, s') →
      s' = s ∧ PositionAttributeAccessor.getPositionS acc index s' = .ok (v, s')) ∧
    (∀ v s', TexCoordAttributeAccessor.getCoordinateS acc index s = .ok (v, s') →
      s' = s ∧ TexCoordAttributeAccessor.getCoordinateS acc index s' = .ok (v, s')) ∧
    (∀ s₂ : MeshVertexData, s.vertexCount = s₂.vertexCount →
      VertexAttributeAccessor.checkRange acc s index =
        VertexAttributeAccessor.checkRange acc s₂ index) ∧
    (∀ s₂ : MeshVertexData, s.vertexCount = s₂.vertexCount →
      (∀ k, k < 12 → s.data (acc.ptrAt index + k) = s₂.data (acc.ptrAt index + k)) →
      PositionAttributeAccessor.getPosition acc s index =
        PositionAttributeAccessor.getPosition acc s₂ index) := by
  refine ⟨?_, ?_, ?_, ?_⟩
  · intro v s' h
    by_cases hc : index < s.vertexCount
    · have ha := assertRange_ok acc s index hc
      simp [PositionAttributeAccessor.getPositionS, ha] at h
      obtain ⟨hv, hs⟩ := h
      subst hs
      refine ⟨rfl, ?_⟩
      simp [PositionAttributeAccessor.getPositionS, ha, hv]
    · have ha := assertRange_err acc s index (by omega)
      simp [PositionAttributeAccessor.getPositionS, ha] at h
  · intro v s' h
    by_cases hc : index < s.vertexCount
    · have ha := assertRange_ok acc s index hc
      simp [TexCoordAttributeAccessor.getCoordinateS, ha] at h
      obtain ⟨hv, hs⟩ := h
      subst hs
      refine ⟨rfl, ?_⟩
      simp [TexCoordAttributeAccessor.getCoordinateS, ha, hv]
    · have ha := assertRange_err acc s index (by omega)
      simp [TexCoordAttributeAccessor.getCoordinateS, ha] at h
  · intro s₂ hcnt
    simp [VertexAttributeAccessor.checkRange, hcnt]
  · intro s₂ hcnt hmem
    have hr0 : readWord32 s.data (acc.ptrAt index) =
        readWord32 s₂.data (acc.ptrAt index) :=
      readWord32_congr _ _ _ (fun k hk => hmem k (by omega))
    have hr4 : readWord32 s.data (acc.ptrAt index + 4) =
        readWord32 s₂.data (acc.ptrAt index + 4) := by
      refine readWord32_congr _ _ _ (fun k hk => ?_)
      have := hmem (4 + k) (by omega)
      simpa [Nat.add_assoc, Nat.add_comm 4 k, Nat.add_left_comm] using this
    have hr8 : readWord32 s.data (acc.ptrAt index + 8) =
        readWord32 s₂.data (acc.ptrAt index + 8) := by
      refine readWord32_congr _ _ _ (fun k hk => ?_)
      have := hmem (8 + k) (by omega)
      simpa [Nat.add_assoc, Nat.add_comm 8 k, Nat.add_left_comm] using this
    have hassert : acc.assertRange s index = acc.assertRange s₂ index := by
      simp [VertexAttributeAccessor.assertRange, hcnt]
    simp only [PositionAttributeAccessor.getPosition, hassert, hr0, hr4, hr8]

/-- Witness for C10: reading vertex 1 of the witness buffer leaves the state
unchanged, and altering bytes of a different attribute record does not
change the result. -/
theorem get_operations_pure_witness :
    (vDataW = vDataW ∧
      PositionAttributeAccessor.getPositionS accPosW 1 vDataW =
        .ok (⟨117901063, 117901063, 117901063⟩, vDataW)) ∧
    PositionAttributeAccessor.getPosition accPosW vDataW 1 =
      PositionAttributeAccessor.getPosition accPosW vDataWtex 1 := by
  have h := get_operations_pure accPosW 1 vDataW
  exact ⟨h.1 ⟨117901063, 117901063, 117901063⟩ vDataW rfl,
    h.2.2.2 vDataWtex rfl (by decide)⟩

/-! Claim C7. -/

theorem setPosition_ok_count (acc : VertexAttributeAccessor)
    (vData vData' : MeshVertexData) (index : Nat) (p : Vec3)
    (hset : PositionAttributeAccessor.setPosition acc vData index p = .ok vData') :
    vData'.vertexCount = vData.vertexCount := by
  by_cases hc : index < vData.vertexCount
  · have ha := assertRange_ok acc vData index hc
    simp [PositionAttributeAccessor.setPosition, ha] at hset
    subst hset
    rfl
  · have ha := assertRange_err acc vData index (by omega)
    simp [PositionAttributeAccessor.setPosition, ha] at hset

theorem setPosition_writes_only (acc : VertexAttributeAccessor)
    (vData vData' : MeshVertexData) (index : Nat) (p : Vec3)
    (hset : PositionAttributeAccessor.setPosition acc vData index p = .ok vData')
    (x : Nat) (hx : x < acc.ptrAt index ∨ acc.ptrAt index + 12 ≤ x) :
    vData'.data x = vData.data x := by
  by_cases hc : index < vData.vertexCount
  · have ha := assertRange_ok acc vData index hc
    simp [PositionAttributeAccessor.setPosition, ha] at hset
    subst hset
    show writeWord32 (writeWord32 (writeWord32 vData.data
      (acc.ptrAt index) p.x) (acc.ptrAt index + 4) p.y) (acc.ptrAt index + 8) p.z x =
      vData.data x
    rw [writeWord32_outside _ (acc.ptrAt index + 8) _ x (by omega),
      writeWord32_outside _ (acc.ptrAt index + 4) _ x (by omega),
      writeWord32_outside _ (acc.ptrAt index) _ x (by omega)]
  · have ha := assertRange_err acc vData index (by omega)
    simp [PositionAttributeAccessor.setPosition, ha] at hset

/-- C7: writing a position through one accessor leaves every byte of a
different, non-overlapping attribute of the same buffer unchanged at every
index: with equal strides, both attributes fitting inside the vertex record
and their in-record byte ranges disjoint, `setPosition` through accessor A
changes no byte of attribute B at any index, and for a 4-byte attribute B
every `getColor4ub` result is unchanged. -/
theorem setPosition_preserves_other_attribute (accA accB : VertexAttributeAccessor)
    (vData vData' : MeshVertexData) (index : Nat) (p : Vec3) (sizeB : Nat)
    (hstride : accB.vertexSize = accA.vertexSize)
    (hfitA : accA.dataPtr + 12 ≤ accA.vertexSize)
    (hfitB : accB.dataPtr + sizeB ≤ accB.vertexSize)
    (hdisj : accA.dataPtr + 12 ≤ accB.dataPtr ∨ accB.dataPtr + sizeB ≤ accA.dataPtr)
    (hset : PositionAttributeAccessor.setPosition accA vData index p = .ok vData') :
    (∀ j k, k < sizeB → vData'.data (accB.ptrAt j + k) = vData.data (accB.ptrAt j + k)) ∧
    (sizeB = 4 → ∀ j, ColorAttributeAccessor4ub.getColor4ub accB vData' j =
      ColorAttributeAccessor4ub.getColor4ub accB vData j) := by
  rw [hstride] at hfitB
  have main : ∀ j k, k < sizeB →
      vData'.data (accB.ptrAt j + k) = vData.data (accB.ptrAt j + k) := by
    intro j k hk
    refine setPosition_writes_only accA vData vData' index p hset _ ?_
    unfold VertexAttributeAccessor.ptrAt
    rw [hstride]
    rcases Nat.lt_trichotomy j index with hj | hj | hj
    · have hmul : j * accA.vertexSize + accA.vertexSize ≤ index * accA.vertexSize := by
        have h1 : (j + 1) * accA.vertexSize ≤ index * accA.vertexSize :=
          Nat.mul_le_mul_right _ hj
        calc j * accA.vertexSize + accA.vertexSize
            = (j + 1) * accA.vertexSize := by ring
          _ ≤ index * accA.vertexSize := h1
      generalize j * accA.vertexSize = u at hmul ⊢
      generalize index * accA.vertexSize = v at hmul ⊢
      omega
    · subst hj
      generalize j * accA.vertexSize = u
      omega
    · have hmul : index * accA.vertexSize + accA.vertexSize ≤ j * accA.vertexSize := by
        have h1 : (index + 1) * accA.vertexSize ≤ j * accA.vertexSize :=
          Nat.mul_le_mul_right _ hj
        calc index * accA.vertexSize + accA.vertexSize
            = (index + 1) * accA.vertexSize := by ring
          _ ≤ j * accA.vertexSize := h1
      generalize j * accA.vertexSize = u at hmul ⊢
      generalize index * accA.vertexSize = v at hmul ⊢
      omega
  refine ⟨main, fun h4 j => ?_⟩
  subst h4
  have hcnt := setPosition_ok_count accA vData vData' index p hset
  by_cases hj : j < vData.vertexCount
  · have ha := assertRange_ok accB vData j hj
    have ha' : accB.assertRange vData' j = .ok () := by
      refine assertRange_ok accB vData' j ?_
      rw [hcnt]
      exact hj
    have m0 : vData'.data (accB.ptrAt j) = vData.data (accB.ptrAt j) := by
      simpa using main j 0 (by omega)
    have m1 := main j 1 (by omega)
    have m2 := main j 2 (by omega)
    have m3 := main j 3 (by omega)
    simp [ColorAttributeAccessor4ub.getColor4ub, ha, ha', m0, m1, m2, m3]
  · have ha := assertRange_err accB vData j (by omega)
    have ha' : accB.assertRange vData' j = .error (.rangeError j) := by
      refine assertRange_err accB vData' j ?_
      rw [hcnt]
      omega
    simp [ColorAttributeAccessor4ub.getColor4ub, ha, ha']

/-- Witness for C7: the spec scenario — stride 32, position at offset 0,
color at offset 12; `setPosition(3, (1, 2, 3))` leaves the color bytes of
vertex 3 and every `getColor4ub` result unchanged. -/
theorem setPosition_preserves_other_attribute_witness :
    vDataWpos.data (accColW.ptrAt 3 + 0) = vDataW.data (accColW.ptrAt 3 + 0) ∧
    ColorAttributeAccessor4ub.getColor4ub accColW vDataWpos 3 =
      ColorAttributeAccessor4ub.getColor4ub accColW vDataW 3 := by
  have h := setPosition_preserves_other_attribute accPosW accColW vDataW vDataWpos 3
    (Vec3.mk 1 2 3) 4 (by decide) (by decide) (by decide) (by decide) rfl
  exact ⟨h.1 3 0 (by decide), h.2 rfl 3⟩

/-! Claim C5. -/

/-- C5: for every buffer and every attribute name absent from the layout
descriptor, each of the four factories fails with the InvalidAttribute-kind
error naming the attribute — a failure distinct from the
UnsupportedEncoding-kind error used when the attribute exists but no
encoding strategy matches — rather than returning an accessor. -/
theorem create_missingAttribute_invalidAttribute (vData : MeshVertexData)
    (name : Nat) (habs : vData.vertexDescription.getAttribute name = none) :
    PositionAttributeAccessor.create vData name = .error (.invalidAttribute name) ∧
    TexCoordAttributeAccessor.create vData name = .error (.invalidAttribute name) ∧
    NormalAttributeAccessor.create vData name = .error (.invalidAttribute name) ∧
    ColorAttributeAccessor.create vData name = .error (.invalidAttribute name) ∧
    (∀ n, FactoryError.invalidAttribute n ≠ FactoryError.unsupportedEncoding) := by
  refine ⟨?_, ?_, ?_, ?_, fun n h => FactoryError.noConfusion h⟩ <;>
    simp [PositionAttributeAccessor.create, TexCoordAttributeAccessor.create,
      NormalAttributeAccessor.create, ColorAttributeAccessor.create, habs]

/-- Witness for C5: name 99 is absent from the witness layout. -/
theorem create_missingAttribute_invalidAttribute_witness :
    PositionAttributeAccessor.create vDataW 99 = .error (.invalidAttribute 99) ∧
    ColorAttributeAccessor.create vDataW 99 = .error (.invalidAttribute 99) := by
  have h := create_missingAttribute_invalidAttribute vDataW 99 (by decide)
  exact ⟨h.1, h.2.2.2.1⟩

/-! Claim C8. -/

theorem round_mul255_nonneg (x : ℚ) (h0 : 0 ≤ x) : 0 ≤ round (x * 255) := by
  rw [round_eq]
  refine Int.floor_nonneg.mpr ?_
  nlinarith

theorem round_mul255_le (x : ℚ) (h1 : x ≤ 1) : round (x * 255) ≤ 255 := by
  rw [round_eq]
  have hle : x * 255 + 1 / 2 ≤ 511 / 2 := by nlinarith
  calc ⌊x * 255 + 1 / 2⌋ ≤ ⌊(511 / 2 : ℚ)⌋ := Int.floor_le_floor hle
    _ = 255 := by norm_num [Int.floor_eq_iff]

theorem floatToUByte_le (x : ℚ) : floatToUByte x ≤ 255 := by
  unfold floatToUByte
  exact Int.toNat_le.mpr (min_le_left _ _)

/-- C8: every concrete color strategy answers both float and byte queries
regardless of the stored encoding, converting by normalized range: the
byte-stored strategy answers the float query as the stored bytes divided by
255, the float-stored strategy answers the byte query as the stored floats
scaled and rounded to 0..255, on either strategy a set followed by the
other-representation get applies the conversion, a component in [0,1] is
recovered within the quantization error 1/510, and the float-to-byte
conversion is idempotent once quantized. -/
theorem color_dual_representation (acc : VertexAttributeAccessor)
    (vData : MeshVertexData) (index : Nat) :
    (index < vData.vertexCount →
      ColorAttributeAccessor4ub.getColor4f acc vData index =
        .ok ⟨ubyteToFloat (vData.data (acc.ptrAt index)),
             ubyteToFloat (vData.data (acc.ptrAt index + 1)),
             ubyteToFloat (vData.data (acc.ptrAt index + 2)),
             ubyteToFloat (vData.data (acc.ptrAt index + 3))⟩) ∧
    (∀ b, ColorAttributeAccessor4ub.getColor4ub acc vData index = .ok b →
      ColorAttributeAccessor4ub.getColor4f acc vData index =
        .ok ⟨ubyteToFloat b.r, ubyteToFloat b.g, ubyteToFloat b.b, ubyteToFloat b.a⟩) ∧
    (index < vData.vertexCount →
      ColorAttributeAccessor4f.getColor4f acc vData index =
        .ok ⟨float32ToRat (readWord32 vData.data (acc.ptrAt index)),
             float32ToRat (readWord32 vData.data (acc.ptrAt index + 4)),
             float32ToRat (readWord32 vData.data (acc.ptrAt index + 8)),
             float32ToRat (readWord32 vData.data (acc.ptrAt index + 12))⟩) ∧
    (∀ c, ColorAttributeAccessor4f.getColor4f acc vData index = .ok c →
      ColorAttributeAccessor4f.getColor4ub acc vData index =
        .ok ⟨floatToUByte c.r, floatToUByte c.g, floatToUByte c.b, floatToUByte c.a⟩) ∧
    (∀ c vData', index < vData.vertexCount →
      ColorAttributeAccessor4ub.setColor acc vData index c = .ok vData' →
      ColorAttributeAccessor4ub.getColor4ub acc vData' index =
        .ok ⟨floatToUByte c.r, floatToUByte c.g, floatToUByte c.b, floatToUByte c.a⟩) ∧
    (∀ cb vData', index < vData.vertexCount →
      cb.r < 4294967296 → cb.g < 4294967296 → cb.b < 4294967296 → cb.a < 4294967296 →
      ColorAttributeAccessor4f.setColor acc vData index cb = .ok vData' →
      ColorAttributeAccessor4f.getColor4ub acc vData' index =
        .ok ⟨floatToUByte (float32ToRat cb.r), floatToUByte (float32ToRat cb.g),
             floatToUByte (float32ToRat cb.b), floatToUByte (float32ToRat cb.a)⟩) ∧
    (∀ x : ℚ, 0 ≤ x → x ≤ 1 → |ubyteToFloat (floatToUByte x) - x| ≤ 1 / 510) ∧
    (∀ x : ℚ, floatToUByte (ubyteToFloat (floatToUByte x)) = floatToUByte x) := by
  refine ⟨?_, ?_, ?_, ?_, ?_, ?_, ?_, ?_⟩
  · intro h
    have ha := assertRange_ok acc vData index h
    simp [ColorAttributeAccessor4ub.getColor4f, ha]
  · intro b hb
    by_cases h : index < vData.vertexCount
    · have ha := assertRange_ok acc vData index h
      simp [ColorAttributeAccessor4ub.getColor4ub, ha] at hb
      subst hb
      simp [ColorAttributeAccessor4ub.getColor4f, ha]
    · have ha := assertRange_err acc vData index (by omega)
      simp [ColorAttributeAccessor4ub.getColor4ub, ha] at hb
  · intro h
    have ha := assertRange_ok acc vData index h
    simp [ColorAttributeAccessor4f.getColor4f, ha]
  · intro col hc
    by_cases h : index < vData.vertexCount
    · have ha := assertRange_ok acc vData index h
      simp [ColorAttributeAccessor4f.getColor4f, ha] at hc
      subst hc
      simp [ColorAttributeAccessor4f.getColor4ub, ha]
    · have ha := assertRange_err acc vData index (by omega)
      simp [ColorAttributeAccessor4f.getColor4f, ha] at hc
  · intro col vData' h hset
    obtain ⟨cr, cg, cb, ca⟩ := col
    have ha := assertRange_ok acc vData index h
    simp [ColorAttributeAccessor4ub.setColor, ha] at hset
    subst hset
    simp [ColorAttributeAccessor4ub.getColor4ub, VertexAttributeAccessor.assertRange,
      Nat.not_le.mpr h, writeByte]
  · intro cbits vData' h h0 h1 h2 h3 hset
    obtain ⟨b0, b1, b2, b3⟩ := cbits
    have hb0 : b0 < 4294967296 := h0
    have hb1 : b1 < 4294967296 := h1
    have hb2 : b2 < 4294967296 := h2
    have hb3 : b3 < 4294967296 := h3
    have ha := assertRange_ok acc vData index h
    simp [ColorAttributeAccessor4f.setColor, ha] at hset
    subst hset
    simp [ColorAttributeAccessor4f.getColor4ub, VertexAttributeAccessor.assertRange,
      Nat.not_le.mpr h]
    refine ⟨?_, ?_, ?_, ?_⟩
    · rw [readWord32_writeWord32_disjoint _ (acc.ptrAt index) (acc.ptrAt index + 12) _ (by omega),
        readWord32_writeWord32_disjoint _ (acc.ptrAt index) (acc.ptrAt index + 8) _ (by omega),
        readWord32_writeWord32_disjoint _ (acc.ptrAt index) (acc.ptrAt index + 4) _ (by omega),
        readWord32_writeWord32_self, Nat.mod_eq_of_lt hb0]
    · rw [readWord32_writeWord32_disjoint _ (acc.ptrAt index + 4) (acc.ptrAt index + 12) _ (by omega),
        readWord32_writeWord32_disjoint _ (acc.ptrAt index + 4) (acc.ptrAt index + 8) _ (by omega),
        readWord32_writeWord32_self, Nat.mod_eq_of_lt hb1]
    · rw [readWord32_writeWord32_disjoint _ (acc.ptrAt index + 8) (acc.ptrAt index + 12) _ (by omega),
        readWord32_writeWord32_self, Nat.mod_eq_of_lt hb2]
    · rw [readWord32_writeWord32_self, Nat.mod_eq_of_lt hb3]
  · intro x h0 h1
    have hr0 := round_mul255_nonneg x h0
    have hr1 := round_mul255_le x h1
    have hmax : max 0 (round (x * 255)) = round (x * 255) := max_eq_right hr0
    have hmin : min 255 (round (x * 255)) = round (x * 255) := min_eq_right (by omega)
    have hcast : ((floatToUByte x : ℕ) : ℚ) = ((round (x * 255) : ℤ) : ℚ) := by
      unfold floatToUByte
      rw [hmax, hmin]
      exact_mod_cast Int.toNat_of_nonneg hr0
    have habs := abs_sub_round (x * 255)
    rw [ubyteToFloat, hcast]
    rw [abs_le] at habs ⊢
    constructor <;> [linarith [habs.1]; linarith [habs.2]]
  · intro x
    have hle : floatToUByte x ≤ 255 := floatToUByte_le x
    have hdiv : ubyteToFloat (floatToUByte x) * 255 = ((floatToUByte x : ℕ) : ℚ) := by
      unfold ubyteToFloat
      field_simp
    conv_lhs => rw [floatToUByte, hdiv, round_natCast]
    have hmax : max 0 ((floatToUByte x : ℕ) : ℤ) = ((floatToUByte x : ℕ) : ℤ) :=
      max_eq_right (by positivity)
    have hmin : min 255 ((floatToUByte x : ℕ) : ℤ) = ((floatToUByte x : ℕ) : ℤ) :=
      min_eq_right (by exact_mod_cast hle)
    rw [hmax, hmin, Int.toNat_natCast]

/-- Witness for C8: the byte strategy after `setColor(4, (1/2, 0, 1, 1))`
answers the byte query with the quantized components, the float strategy
after storing the bit patterns of (0.5, 0, 1, 1) answers the byte query by
normalized conversion of the decoded floats, and the quantization bound
holds at 1/2. -/
theorem color_dual_representation_witness :
    ColorAttributeAccessor4ub.getColor4ub accColW vDataWcol 4 =
      .ok ⟨floatToUByte (1/2), floatToUByte 0, floatToUByte 1, floatToUByte 1⟩ ∧
    ColorAttributeAccessor4f.getColor4ub accColFW vDataWFcol 2 =
      .ok ⟨floatToUByte (float32ToRat 1056964608), floatToUByte (float32ToRat 0),
           floatToUByte (float32ToRat 1065353216), floatToUByte (float32ToRat 1065353216)⟩ ∧
    |ubyteToFloat (floatToUByte (1/2)) - 1/2| ≤ 1 / 510 := by
  have h := color_dual_representation accColW vDataW 4
  have hf := color_dual_representation accColFW vDataWF 2
  refine ⟨h.2.2.2.2.1 ⟨1/2, 0, 1, 1⟩ vDataWcol (by decide) rfl,
    hf.2.2.2.2.2.1 ⟨1056964608, 0, 1065353216, 1065353216⟩ vDataWFcol (by decide)
      (by decide) (by decide) (by decide) (by decide) rfl,
    h.2.2.2.2.2.2.1 (1/2) (by norm_num) (by norm_num)⟩

end Rendering
